import Mathlib

/-!
Verification of the visual-detection engine and monitoring loop of
lol-auto-accept-go against its specification.

Shallow embedding conventions:
* A raster image (`image.RGBA` frame or decoded PNG template) is modelled as
  `Img`: a width, a height and a total pixel function `ℤ → ℤ → RGBA`.
  Captured frames and decoded templates have bounds starting at (0,0), so
  `Bounds().Min = (0,0)` and `Bounds().Max = (w,h)` throughout; a channel value
  is the 8-bit value obtained by the Go code via `color.RGBA()` followed by
  `>> 8`.
* Go `float64` scores, thresholds and scale factors are modelled as `ℚ`.
  None of the verified properties hinges on binary floating-point rounding;
  the one place where a float is converted to an integer (`int(w * scale)`)
  is modelled exactly as truncation toward zero (`goInt`).
* Go integer division and modulus on nonnegative operands are truncating, as
  are `Int.tdiv` / `%` used here. The one place the sources add to a `uint8`
  channel (`c.R+20`, `c.B+10`, `c.R+10` in `isAcceptButtonColor`) wraps
  modulo 256 and is modelled with an explicit `% 256`; everywhere else the
  code converts to `int` before doing arithmetic.
* Loops are materialised as lists of the visited indices (`stepList` mirrors
  `for v := lo; v <= hi; v += s`), folds replace mutable accumulators.
-/

namespace LolAccept

/-- One RGBA sample; channels are the 8-bit values seen by the Go code. -/
structure RGBA where
  r : ℕ
  g : ℕ
  b : ℕ
  a : ℕ
  deriving DecidableEq, Repr

/-- A point on the screen, mirroring `detector.Point`. -/
structure Pt where
  x : ℤ
  y : ℤ
  deriving DecidableEq, Repr

/-- An axis-aligned rectangle, mirroring `image.Rectangle` with exclusive
`Max`; frames are anchored at the origin. -/
structure Rect where
  minX : ℤ
  minY : ℤ
  maxX : ℤ
  maxY : ℤ
  deriving DecidableEq, Repr

/-- An image: width, height and total pixel function (Go's `RGBAAt` / `At`
are only evaluated in bounds by the modelled code paths). -/
structure Img where
  w : ℕ
  h : ℕ
  pix : ℤ → ℤ → RGBA

/-- The values visited by the Go loop `for v := lo; v <= hi; v += s`. -/
def stepList (lo hi : ℤ) (s : ℕ) : List ℤ :=
  if lo ≤ hi then (List.range ((hi - lo).toNat / s + 1)).map (fun k => lo + ((k * s : ℕ) : ℤ))
  else []

/-- Row-major traversal (outer loop over `ys`, inner loop over `xs`),
as `(x, y)` pairs. -/
def gridPts (ys xs : List ℤ) : List (ℤ × ℤ) :=
  ys.flatMap (fun y => xs.map (fun x => (x, y)))

/-- Go's `int(q)` conversion of a float: truncation toward zero. -/
def goInt (q : ℚ) : ℤ := Int.tdiv q.num q.den

/-- `int(float64(d) * scale)`: the scaled template dimension. -/
def scaledLen (d : ℕ) (s : ℚ) : ℤ := goInt ((d : ℚ) * s)

/-- The four boundary-clamping `if`s used before every scan
(clip a rectangle to the frame bounds `[0,w) × [0,h)`). -/
def clipRect (r : Rect) (w h : ℕ) : Rect :=
  ⟨max r.minX 0, max r.minY 0, min r.maxX (w : ℤ), min r.maxY (h : ℤ)⟩

/-- `colorsAreSimilarLoose` (internal/detector/matching.go): Manhattan
distance over R,G,B below 150, alpha ignored. -/
def colorsAreSimilarLoose (c1 : RGBA) (r2 g2 b2 : ℕ) : Bool :=
  let dr := (c1.r : ℤ) - (r2 : ℤ)
  let dg := (c1.g : ℤ) - (g2 : ℤ)
  let db := (c1.b : ℤ) - (b2 : ℤ)
  let dr := if dr < 0 then -dr else dr
  let dg := if dg < 0 then -dg else dg
  let db := if db < 0 then -db else db
  decide (dr + dg + db < 150)

/-- `colorsAreSimilarStrict`: Manhattan distance over R,G,B below 60. -/
def colorsAreSimilarStrict (c1 : RGBA) (r2 g2 b2 : ℕ) : Bool :=
  let dr := (c1.r : ℤ) - (r2 : ℤ)
  let dg := (c1.g : ℤ) - (g2 : ℤ)
  let db := (c1.b : ℤ) - (b2 : ℤ)
  let dr := if dr < 0 then -dr else dr
  let dg := if dg < 0 then -dg else dg
  let db := if db < 0 then -db else db
  decide (dr + dg + db < 60)

/-- `colorDifference`: Manhattan color distance between two pixels. -/
def colorDifference (c1 c2 : RGBA) : ℤ :=
  let dr := (c1.r : ℤ) - (c2.r : ℤ)
  let dg := (c1.g : ℤ) - (c2.g : ℤ)
  let db := (c1.b : ℤ) - (c2.b : ℤ)
  let dr := if dr < 0 then -dr else dr
  let dg := if dg < 0 then -dg else dg
  let db := if db < 0 then -db else db
  dr + dg + db

/-- The Manhattan color distance `|ΔR|+|ΔG|+|ΔB|` (reference formulation used
to state the similarity-predicate claims). -/
def manhattan (c : RGBA) (r2 g2 b2 : ℕ) : ℤ :=
  |(c.r : ℤ) - (r2 : ℤ)| + |(c.g : ℤ) - (g2 : ℤ)| + |(c.b : ℤ) - (b2 : ℤ)|

/-- Template sample coordinates of `calculateSimilarityFast`: both template
axes walked at sub-stride 2 (`for y := 0; y < Dy; y += 2 { for x ... }`). -/
def fastSamplePts (needle : Img) : List (ℤ × ℤ) :=
  gridPts (stepList 0 ((needle.h : ℤ) - 1) 2) (stepList 0 ((needle.w : ℤ) - 1) 2)

/-- `calculateSimilarityFast` (internal/detector/matching.go): sampled
similarity of the template placed at `(offsetX, offsetY)`; samples mapped
outside the frame are skipped (`continue`), matches judged by
`colorsAreSimilarLoose`, result is `matchingSamples / totalSamples`
(0 if nothing was sampled). -/
def calculateSimilarityFast (hay needle : Img) (offsetX offsetY : ℤ) (scale : ℚ) : ℚ :=
  let kept := (fastSamplePts needle).filter (fun p =>
    decide (offsetX + goInt ((p.1 : ℚ) * scale) < (hay.w : ℤ) ∧
            offsetY + goInt ((p.2 : ℚ) * scale) < (hay.h : ℤ)))
  let matching := kept.countP (fun p =>
    colorsAreSimilarLoose
      (hay.pix (offsetX + goInt ((p.1 : ℚ) * scale)) (offsetY + goInt ((p.2 : ℚ) * scale)))
      (needle.pix p.1 p.2).r (needle.pix p.1 p.2).g (needle.pix p.1 p.2).b)
  if kept.length = 0 then 0 else (matching : ℚ) / (kept.length : ℚ)

/-- One step of a keep-the-strictly-best scan
(`if score > bestScore { bestScore, bestMatch = score, candidate }`). -/
def bestStep {α β : Type} [LinearOrder β] (f : α → β) (g : α → Pt)
    (st : β × Option Pt) (x : α) : β × Option Pt :=
  if st.1 < f x then (f x, some (g x)) else st

/-- A keep-the-strictly-best scan over a list, starting from `bestScore = init`
and `bestMatch = nil`. -/
def bestScan {α β : Type} [LinearOrder β] (f : α → β) (g : α → Pt)
    (init : β) (l : List α) : β × Option Pt :=
  l.foldl (bestStep f g) (init, none)

/-- The window origins visited by `templateMatchFast`: row-major over the
clipped area at stride 2, window required to fit
(`y <= Max.Y - needleHeight`, `x <= Max.X - needleWidth`). -/
def windowOrigins (a : Rect) (nw nh : ℤ) : List (ℤ × ℤ) :=
  gridPts (stepList a.minY (a.maxY - nh) 2) (stepList a.minX (a.maxX - nw) 2)

/-- `templateMatchFast` (internal/detector/matching.go): clip the search area
to the frame, slide the scaled template at stride 2 keeping the strictly best
sampled score above `threshold`, return the best window's center
(origin + half the scaled template size, integer division). -/
def templateMatchFast (hay needle : Img) (threshold : ℚ) (searchArea : Rect) (scale : ℚ) :
    Option Pt :=
  let nw := scaledLen needle.w scale
  let nh := scaledLen needle.h scale
  (bestScan (fun p => calculateSimilarityFast hay needle p.1 p.2 scale)
    (fun p => ⟨p.1 + Int.tdiv nw 2, p.2 + Int.tdiv nh 2⟩)
    threshold
    (windowOrigins (clipRect searchArea hay.w hay.h) nw nh)).2

/-- The near-white test of the matching-screen text heuristic
(`c.R > 200 && c.G > 200 && c.B > 200`). -/
def nearWhite (c : RGBA) : Bool :=
  decide (200 < c.r) && decide (200 < c.g) && decide (200 < c.b)

/-- The center of the frame, `bounds.Dx() / 2` (likewise for y). -/
def centerX (img : Img) : ℤ := ((img.w / 2 : ℕ) : ℤ)

/-- The center of the frame, `bounds.Dy() / 2`. -/
def centerY (img : Img) : ℤ := ((img.h / 2 : ℕ) : ℤ)

/-- The clipped ±200×±100 sub-rectangle around the frame center searched by
the white-text heuristic. -/
def whiteTextRect (img : Img) : Rect :=
  clipRect ⟨centerX img - 200, centerY img - 100, centerX img + 200, centerY img + 100⟩ img.w img.h

/-- The stride-3 sample points of the white-text heuristic
(`for y := Min.Y; y < Max.Y; y += 3 { for x ... }`). -/
def whiteTextSamplePts (img : Img) : List (ℤ × ℤ) :=
  gridPts (stepList (whiteTextRect img).minY ((whiteTextRect img).maxY - 1) 3)
          (stepList (whiteTextRect img).minX ((whiteTextRect img).maxX - 1) 3)

/-- The scale list retried by `FastDetectMatchingScreen` when the scale-1.0
search misses: `{0.5, 0.7, 0.8, 1.2, 1.5, 2.0}`. -/
def matchingScales : List ℚ := [1/2, 7/10, 4/5, 6/5, 3/2, 2]

/-- `FastDetectMatchingScreen` (internal/detector/matching.go): template
search over the full frame (scale 1.0, threshold 0.6, then the scale list at
threshold 0.5) when a template is loaded, then the near-white text heuristic
(positive when over 5% of the stride-3 samples are near-white). -/
def FastDetectMatchingScreen (matchingTemplate : Option Img) (img : Img) : Bool :=
  let fullArea : Rect := ⟨0, 0, (img.w : ℤ), (img.h : ℤ)⟩
  let tmplHit : Bool :=
    match matchingTemplate with
    | some t =>
        (templateMatchFast img t (3/5) fullArea 1).isSome ||
        matchingScales.any (fun s => (templateMatchFast img t (1/2) fullArea s).isSome)
    | none => false
  if tmplHit then true
  else
    let pts := whiteTextSamplePts img
    let cnt := pts.countP (fun p => nearWhite (img.pix p.1 p.2))
    if 0 < pts.length then decide ((1/20 : ℚ) < (cnt : ℚ) / (pts.length : ℚ)) else false

/-- `isAcceptButtonColor`: the disjunction of three channel-ratio rules for
the teal/green/blue button fill. The sums `c.R+20`, `c.B+10`, `c.R+10` are
Go `uint8` additions and therefore wrap modulo 256 — e.g. a pixel
(255, 180, 0) is button-coloured because `180 > (255+20) mod 256 = 19` —
so the wrap is modelled explicitly with `% 256`. -/
def isAcceptButtonColor (c : RGBA) : Bool :=
  (decide ((c.r + 20) % 256 < c.g) && decide ((c.b + 10) % 256 < c.g) && decide (100 < c.g)) ||
  (decide ((c.r + 20) % 256 < c.b) && decide ((c.r + 10) % 256 < c.g) && decide (80 < c.b)) ||
  (decide (120 < c.g) && decide (80 < c.b) && decide (c.r < 100))

/-- The 41×41 neighbourhood offsets (radius 20, stride 1) of
`countSimilarColorCluster`. -/
def clusterOffsets : List (ℤ × ℤ) :=
  gridPts (stepList (-20) 20 1) (stepList (-20) 20 1)

/-- `countSimilarColorCluster`: count button-coloured pixels in the 41×41
window around `(cX, cY)`, restricted to the search-area rectangle. -/
def countSimilarColorCluster (img : Img) (cX cY : ℤ) (bounds : Rect) : ℕ :=
  clusterOffsets.countP (fun d =>
    decide (bounds.minX ≤ cX + d.1 ∧ cX + d.1 < bounds.maxX ∧
            bounds.minY ≤ cY + d.2 ∧ cY + d.2 < bounds.maxY) &&
    isAcceptButtonColor (img.pix (cX + d.1) (cY + d.2)))

/-- The stride-2 sample points of `detectButtonByColor`
(`for y := Min.Y; y < Max.Y; y += 2 { for x ... }`). -/
def colorSamplePts (area : Rect) : List (ℤ × ℤ) :=
  gridPts (stepList area.minY (area.maxY - 1) 2) (stepList area.minX (area.maxX - 1) 2)

/-- `detectButtonByColor` (color-cluster method): keep the sampled
button-coloured pixel whose cluster count strictly beats the best so far and
exceeds 50. -/
def detectButtonByColor (img : Img) (area : Rect) : Option Pt :=
  ((colorSamplePts area).foldl (fun st p =>
      if isAcceptButtonColor (img.pix p.1 p.2) then
        let cs := countSimilarColorCluster img p.1 p.2 area
        if st.1 < cs ∧ 50 < cs then (cs, some ⟨p.1, p.2⟩) else st
      else st)
    ((0 : ℕ), (none : Option Pt))).2

/-- The coarse grid of probe offsets inside one 100×50 edge window
(`for dy := 0; dy < height; dy += 2 { for dx ... }`). -/
def edgeProbeOffsets (width height : ℤ) : List (ℤ × ℤ) :=
  gridPts (stepList 0 (height - 1) 2) (stepList 0 (width - 1) 2)

/-- `isButtonShape`: reject windows leaving the frame, then require the
fraction of probed pixels whose right or down neighbour differs by a Manhattan
distance over 30 to exceed 0.15. -/
def isButtonShape (img : Img) (x y width height : ℤ) : Bool :=
  if (img.w : ℤ) ≤ x + width ∨ (img.h : ℤ) ≤ y + height then false
  else
    let kept := (edgeProbeOffsets width height).filter (fun d =>
      decide (x + d.1 < (img.w : ℤ) - 1 ∧ y + d.2 < (img.h : ℤ) - 1))
    let edgeCnt := kept.countP (fun d =>
      decide (30 < colorDifference (img.pix (x + d.1) (y + d.2)) (img.pix (x + d.1 + 1) (y + d.2)) ∨
              30 < colorDifference (img.pix (x + d.1) (y + d.2)) (img.pix (x + d.1) (y + d.2 + 1))))
    decide (0 < kept.length) && decide ((3/20 : ℚ) < (edgeCnt : ℚ) / (kept.length : ℚ))

/-- The 100×50 probe-window origins of `detectButtonByEdge`, row-major at
stride 5 (`y < Max.Y-50`, `x < Max.X-100`). -/
def edgeWindows (area : Rect) : List (ℤ × ℤ) :=
  gridPts (stepList area.minY (area.maxY - 50 - 1) 5) (stepList area.minX (area.maxX - 100 - 1) 5)

/-- `detectButtonByEdge` (edge-density method): return the center
`(x+50, y+25)` of the first probe window recognised by `isButtonShape`. -/
def detectButtonByEdge (img : Img) (area : Rect) : Option Pt :=
  ((edgeWindows area).find? (fun p => isButtonShape img p.1 p.2 100 50)).map
    (fun p => ⟨p.1 + 50, p.2 + 25⟩)

/-- The ±20 stride-4 neighbourhood offsets of `checkSurroundingColors`. -/
def surroundOffsets : List (ℤ × ℤ) :=
  gridPts (stepList (-20) 20 4) (stepList (-20) 20 4)

/-- `checkSurroundingColors`: bonus 0.2 when over 30% of the sampled in-frame
neighbourhood is button-coloured, 0.1 when over 10%, else 0. -/
def checkSurroundingColors (img : Img) (cX cY : ℤ) : ℚ :=
  let kept := surroundOffsets.filter (fun d =>
    decide (0 ≤ cX + d.1 ∧ cX + d.1 < (img.w : ℤ) ∧ 0 ≤ cY + d.2 ∧ cY + d.2 < (img.h : ℤ)))
  let cnt := kept.countP (fun d => isAcceptButtonColor (img.pix (cX + d.1) (cY + d.2)))
  if kept.length = 0 then 0
  else if (3/10 : ℚ) < (cnt : ℚ) / (kept.length : ℚ) then 1/5
  else if (1/10 : ℚ) < (cnt : ℚ) / (kept.length : ℚ) then 1/10
  else 0

/-- Every template pixel (`for y := 0; y < Dy; y++ { for x ... }`), no
sampling. -/
def detailedPts (needle : Img) : List (ℤ × ℤ) :=
  gridPts (stepList 0 ((needle.h : ℤ) - 1) 1) (stepList 0 ((needle.w : ℤ) - 1) 1)

/-- `calculateDetailedSimilarity`: exhaustive per-pixel strict-match ratio of
the template placed at `(offsetX, offsetY)`; samples mapped outside the frame
are skipped. -/
def calculateDetailedSimilarity (hay needle : Img) (offsetX offsetY : ℤ) (scale : ℚ) : ℚ :=
  let kept := (detailedPts needle).filter (fun p =>
    decide (offsetX + goInt ((p.1 : ℚ) * scale) < (hay.w : ℤ) ∧
            offsetY + goInt ((p.2 : ℚ) * scale) < (hay.h : ℤ)))
  let matching := kept.countP (fun p =>
    colorsAreSimilarStrict
      (hay.pix (offsetX + goInt ((p.1 : ℚ) * scale)) (offsetY + goInt ((p.2 : ℚ) * scale)))
      (needle.pix p.1 p.2).r (needle.pix p.1 p.2).g (needle.pix p.1 p.2).b)
  if kept.length = 0 then 0 else (matching : ℚ) / (kept.length : ℚ)

/-- `VerifyAcceptButton`: 0.5 when no template is loaded; 0.3 when the
reconstructed template box leaves the frame; otherwise the exhaustive
strict-match ratio plus the surrounding-color bonus. -/
def VerifyAcceptButton (acceptTemplate : Option Img) (img : Img) (pos : Pt) (scale : ℚ) : ℚ :=
  match acceptTemplate with
  | none => 1/2
  | some t =>
    let nw := scaledLen t.w scale
    let nh := scaledLen t.h scale
    let startX := pos.x - Int.tdiv nw 2
    let startY := pos.y - Int.tdiv nh 2
    if startX < 0 ∨ startY < 0 ∨ (img.w : ℤ) ≤ startX + nw ∨ (img.h : ℤ) ≤ startY + nh then 3/10
    else calculateDetailedSimilarity img t startX startY scale + checkSurroundingColors img pos.x pos.y

/-- The clipped ±400×[-50,+250] search rectangle of `FastDetectAcceptButton`. -/
def acceptSearchArea (img : Img) : Rect :=
  clipRect ⟨centerX img - 400, centerY img - 50, centerX img + 400, centerY img + 250⟩ img.w img.h

/-- The scale list of the accept-button template method. -/
def buttonScales : List ℚ := [1/2, 3/5, 7/10, 4/5, 9/10, 1, 11/10, 6/5, 13/10, 3/2]

/-- The threshold list of the accept-button template method. -/
def buttonThresholds : List ℚ := [2/5, 1/2, 3/5, 7/10]

/-- Method 1 of `FastDetectAcceptButton`: over the (threshold, scale)
cross-product, keep the template-match candidate whose verification score
strictly beats the best so far (best score starts at 0). -/
def acceptTemplateMethod (tmpl : Img) (img : Img) (area : Rect) : Option Pt :=
  (buttonThresholds.foldl (fun st θ =>
      buttonScales.foldl (fun st s =>
        match templateMatchFast img tmpl θ area s with
        | some pos =>
            let sc := VerifyAcceptButton (some tmpl) img pos s
            if st.1 < sc then (sc, some pos) else st
        | none => st) st) ((0 : ℚ), (none : Option Pt))).2

/-- `FastDetectAcceptButton` (unnamed/part_000): template method, then the
color-cluster method if it found nothing, then the edge-density method. -/
def FastDetectAcceptButton (tmpl : Img) (img : Img) : Option Pt :=
  let area := acceptSearchArea img
  let m1 := acceptTemplateMethod tmpl img area
  let m2 := if m1 = none then detectButtonByColor img area else m1
  if m2 = none then detectButtonByEdge img area else m2

/-- The distinct notifications a poll iteration can emit (log lines and
status updates pushed to the WebSocket manager), in source order. -/
inductive Ev where
  | matchFound
  | statusWatchButton
  | waitingMatch
  | matchLost
  | statusStopped
  | stopped
  | buttonDetected
  | clickedLog
  | waitNotice
  | stillMatching
  | clickFailed
  | lowScore
  | searching
  | searchAreaInfo
  deriving DecidableEq, Repr

/-- The cross-task mutable monitor flags. -/
structure AppState where
  running : Bool
  waitingForMatch : Bool
  deriving DecidableEq, Repr

/-- The observable output of one poll iteration: the position passed to the
click controller, if it was invoked, and the notifications emitted. -/
structure TickOut where
  clicked : Option Pt
  events : List Ev
  deriving DecidableEq, Repr

/-- `StopMonitoring`: reset both flags and emit the stop notifications
(no-op when not running). -/
def stopMonitoring (st : AppState) : AppState × List Ev :=
  if st.running then (⟨false, false⟩, [Ev.statusStopped, Ev.stopped]) else (st, [])

/-- One iteration of the `StartMonitoring` poll loop (app.go, the body of the
500 ms ticker), as a function of the state, the capture result, the re-capture
taken after a click (`cap2 = none` models a failing re-capture), the click
controller's result and the wall-clock second used for log gating. -/
def monitorTick (tmplM tmplA : Img) (st : AppState) (cap1 cap2 : Option Img)
    (clickOk : Bool) (nowSec : ℤ) : AppState × TickOut :=
  match cap1 with
  | none => (st, ⟨none, []⟩)
  | some img =>
    if st.waitingForMatch then
      if FastDetectMatchingScreen (some tmplM) img then
        ({st with waitingForMatch := false}, ⟨none, [Ev.matchFound, Ev.statusWatchButton]⟩)
      else
        (st, ⟨none, if nowSec % 5 = 0 then [Ev.waitingMatch] else []⟩)
    else
      if FastDetectMatchingScreen (some tmplM) img then
        match FastDetectAcceptButton tmplA img with
        | some pos =>
          let score := VerifyAcceptButton (some tmplA) img pos 1
          if (1/5 : ℚ) < score then
            if clickOk then
              match cap2 with
              | some img2 =>
                if FastDetectMatchingScreen (some tmplM) img2 then
                  (st, ⟨some pos, [Ev.buttonDetected, Ev.clickedLog, Ev.waitNotice, Ev.stillMatching]⟩)
                else
                  let s2 := stopMonitoring st
                  (s2.1, ⟨some pos, [Ev.buttonDetected, Ev.clickedLog, Ev.waitNotice, Ev.matchLost] ++ s2.2⟩)
              | none =>
                (st, ⟨some pos, [Ev.buttonDetected, Ev.clickedLog, Ev.waitNotice, Ev.stillMatching]⟩)
            else
              (st, ⟨some pos, [Ev.buttonDetected, Ev.clickFailed]⟩)
          else
            (st, ⟨none, [Ev.buttonDetected, Ev.lowScore]⟩)
        | none =>
          (st, ⟨none, if nowSec % 10 = 0 then [Ev.searching, Ev.searchAreaInfo] else []⟩)
      else
        let s2 := stopMonitoring st
        (s2.1, ⟨none, Ev.matchLost :: s2.2⟩)

/-- A keep-the-strictly-best fold either never improves on the initial score
(and keeps the initial candidate) or returns the first element attaining the
maximum score, which strictly exceeds the initial score. -/
theorem bestFold_spec {α β : Type} [LinearOrder β] (f : α → β) (g : α → Pt) :
    ∀ (l : List α) (b : β) (m : Option Pt),
      ((l.foldl (bestStep f g) (b, m)).2 = m ∧ ∀ x ∈ l, f x ≤ b) ∨
      (∃ l1 x l2, l = l1 ++ x :: l2 ∧ b < f x ∧
        (l.foldl (bestStep f g) (b, m)).2 = some (g x) ∧
        (∀ y ∈ l, f y ≤ f x) ∧ (∀ y ∈ l1, f y < f x)) := by
  intro l
  induction l with
  | nil => intro b m; left; exact ⟨rfl, by simp⟩
  | cons a l ih =>
    intro b m
    rw [List.foldl_cons]
    by_cases hba : b < f a
    · have hstep : bestStep f g (b, m) a = (f a, some (g a)) := by
        simp only [bestStep]; rw [if_pos hba]
      rw [hstep]
      rcases ih (f a) (some (g a)) with ⟨hres, hall⟩ | ⟨l1, x, l2, hdec, hlt, hres, hmax, hpre⟩
      · right
        refine ⟨[], a, l, by simp, hba, hres, ?_, by simp⟩
        intro y hy
        rcases List.mem_cons.mp hy with rfl | hy
        · exact le_refl _
        · exact hall y hy
      · right
        refine ⟨a :: l1, x, l2, by rw [hdec]; rfl, lt_trans hba hlt, hres, ?_, ?_⟩
        · intro y hy
          rcases List.mem_cons.mp hy with rfl | hy
          · exact le_of_lt hlt
          · exact hmax y hy
        · intro y hy
          rcases List.mem_cons.mp hy with rfl | hy
          · exact hlt
          · exact hpre y hy
    · have hab : f a ≤ b := not_lt.mp hba
      have hstep : bestStep f g (b, m) a = (b, m) := by
        simp only [bestStep]; rw [if_neg hba]
      rw [hstep]
      rcases ih b m with ⟨hres, hall⟩ | ⟨l1, x, l2, hdec, hlt, hres, hmax, hpre⟩
      · left
        refine ⟨hres, ?_⟩
        intro y hy
        rcases List.mem_cons.mp hy with rfl | hy
        · exact hab
        · exact hall y hy
      · right
        refine ⟨a :: l1, x, l2, by rw [hdec]; rfl, hlt, hres, ?_, ?_⟩
        · intro y hy
          rcases List.mem_cons.mp hy with rfl | hy
          · exact le_of_lt (lt_of_le_of_lt hab hlt)
          · exact hmax y hy
        · intro y hy
          rcases List.mem_cons.mp hy with rfl | hy
          · exact lt_of_le_of_lt hab hlt
          · exact hpre y hy

/-- `bestScan` finds nothing exactly when no element scores strictly above
the initial score. -/
theorem bestScan_eq_none_iff {α β : Type} [LinearOrder β] (f : α → β) (g : α → Pt)
    (init : β) (l : List α) :
    (bestScan f g init l).2 = none ↔ ∀ x ∈ l, f x ≤ init := by
  unfold bestScan
  constructor
  · intro h
    rcases bestFold_spec f g l init none with ⟨_, hall⟩ | ⟨l1, x, l2, _, _, hres, _, _⟩
    · exact hall
    · rw [h] at hres; cases hres
  · intro hall
    rcases bestFold_spec f g l init none with ⟨hres, _⟩ | ⟨l1, x, l2, hdec, hlt, _, _, _⟩
    · exact hres
    · have hx : x ∈ l := by rw [hdec]; exact List.mem_append_right _ (List.mem_cons_self x l2)
      exact absurd hlt (not_lt.mpr (hall x hx))

/-- When `bestScan` returns a candidate, it is the image of the first element
attaining the maximum score, which strictly exceeds the initial score. -/
theorem bestScan_eq_some {α β : Type} [LinearOrder β] (f : α → β) (g : α → Pt)
    (init : β) (l : List α) (p : Pt) (h : (bestScan f g init l).2 = some p) :
    ∃ l1 x l2, l = l1 ++ x :: l2 ∧ init < f x ∧ p = g x ∧
      (∀ y ∈ l, f y ≤ f x) ∧ (∀ y ∈ l1, f y < f x) := by
  unfold bestScan at h
  rcases bestFold_spec f g l init none with ⟨hres, _⟩ | ⟨l1, x, l2, hdec, hlt, hres, hmax, hpre⟩
  · rw [hres] at h; cases h
  · rw [h] at hres
    exact ⟨l1, x, l2, hdec, hlt, Option.some_injective _ hres, hmax, hpre⟩

/-- `find?` returns the first element satisfying the predicate: every earlier
element fails it. -/
theorem find_first_spec {α : Type} (p : α → Bool) :
    ∀ (l : List α) (x : α), l.find? p = some x →
      ∃ l1 l2, l = l1 ++ x :: l2 ∧ p x = true ∧ ∀ y ∈ l1, p y = false := by
  intro l
  induction l with
  | nil => intro x h; cases h
  | cons a l ih =>
    intro x h
    by_cases ha : p a = true
    · rw [List.find?_cons_of_pos _ ha] at h
      cases h
      exact ⟨[], l, by simp, ha, by simp⟩
    · rw [List.find?_cons_of_neg _ ha] at h
      rcases ih x h with ⟨l1, l2, hdec, hx, hpre⟩
      refine ⟨a :: l1, l2, by rw [hdec]; rfl, hx, ?_⟩
      intro y hy
      rcases List.mem_cons.mp hy with rfl | hy
      · exact Bool.eq_false_iff.mpr ha
      · exact hpre y hy

/-- Elements of `stepList lo hi s` lie between `lo` and `hi`. -/
theorem stepList_bounds {lo hi : ℤ} {s : ℕ} {v : ℤ} (h : v ∈ stepList lo hi s) :
    lo ≤ v ∧ v ≤ hi := by
  unfold stepList at h
  split at h
  case isTrue hle =>
    rcases List.mem_map.mp h with ⟨k, hk, rfl⟩
    have hk2 : k < (hi - lo).toNat / s + 1 := List.mem_range.mp hk
    have h1 : k * s ≤ (hi - lo).toNat := by
      calc k * s ≤ ((hi - lo).toNat / s) * s := Nat.mul_le_mul_right s (by omega)
        _ ≤ (hi - lo).toNat := Nat.div_mul_le_self _ _
    have h3 : ((k * s : ℕ) : ℤ) ≤ (((hi - lo).toNat : ℕ) : ℤ) := Int.ofNat_le.mpr h1
    have h4 : (((hi - lo).toNat : ℕ) : ℤ) = hi - lo := Int.toNat_of_nonneg (by omega)
    have h5 : (0 : ℤ) ≤ ((k * s : ℕ) : ℤ) := Int.natCast_nonneg _
    omega
  case isFalse => cases h

/-- `lo` itself is visited whenever the loop runs at all. -/
theorem stepList_self {lo hi : ℤ} (s : ℕ) (h : lo ≤ hi) : lo ∈ stepList lo hi s := by
  unfold stepList
  rw [if_pos h]
  have h0 : 0 ∈ List.range ((hi - lo).toNat / s + 1) := List.mem_range.mpr (Nat.succ_pos _)
  exact List.mem_map.mpr ⟨0, h0, by simp⟩

/-- Membership in a row-major grid is membership on each axis. -/
theorem gridPts_mem {ys xs : List ℤ} {p : ℤ × ℤ} :
    p ∈ gridPts ys xs ↔ p.2 ∈ ys ∧ p.1 ∈ xs := by
  unfold gridPts
  rw [List.mem_flatMap]
  constructor
  · rintro ⟨y, hy, hp⟩
    rcases List.mem_map.mp hp with ⟨x, hx, rfl⟩
    exact ⟨hy, hx⟩
  · rintro ⟨h2, h1⟩
    exact ⟨p.2, h2, List.mem_map.mpr ⟨p.1, h1, by simp⟩⟩

/-- Go's `int` conversion is the identity on integral rationals. -/
theorem goInt_intCast (n : ℤ) : goInt ((n : ℚ)) = n := by
  unfold goInt
  rw [Rat.intCast_num, Rat.intCast_den]
  rcases n with m | m
  · simp [Int.tdiv]
  · simp [Int.tdiv, Int.negSucc_eq]

/-- At scale 1.0 the scaled template dimension is the true dimension. -/
theorem scaledLen_one (d : ℕ) : scaledLen d 1 = (d : ℤ) := by
  unfold scaledLen
  rw [mul_one]
  exact_mod_cast goInt_intCast (d : ℤ)

/-- Uniform white pixel. -/
def whiteC : RGBA := ⟨255, 255, 255, 255⟩

/-- Uniform black pixel. -/
def blackC : RGBA := ⟨0, 0, 0, 255⟩

/-- Uniform mid-gray pixel. -/
def grayC : RGBA := ⟨100, 100, 100, 255⟩

/-- A 4×4 all-white frame. -/
def imgW4 : Img := ⟨4, 4, fun _ _ => whiteC⟩

/-- A 4×4 all-black frame. -/
def imgB4 : Img := ⟨4, 4, fun _ _ => blackC⟩

/-- A 2×2 all-white template. -/
def tmplW2 : Img := ⟨2, 2, fun _ _ => whiteC⟩

/-- A 16×4 all-gray frame. -/
def imgGray : Img := ⟨16, 4, fun _ _ => grayC⟩

/-- An 11×2 all-gray template (odd width, so `11 * 0.5 = 5.5` separates
truncation from rounding). -/
def tmplGray : Img := ⟨11, 2, fun _ _ => grayC⟩

/-- A 1×1 frame whose single pixel is at Manhattan distance 130 from black. -/
def imgRed1 : Img := ⟨1, 1, fun _ _ => ⟨130, 0, 0, 255⟩⟩

/-- A 1×1 all-black template. -/
def tmplB1 : Img := ⟨1, 1, fun _ _ => blackC⟩

/-- `templateMatchFast` is a keep-the-strictly-best scan over its window
origins. -/
theorem templateMatchFast_eq_bestScan (hay needle : Img) (t : ℚ) (area : Rect) (s : ℚ) :
    templateMatchFast hay needle t area s =
      (bestScan (fun p => calculateSimilarityFast hay needle p.1 p.2 s)
        (fun p => ⟨p.1 + Int.tdiv (scaledLen needle.w s) 2, p.2 + Int.tdiv (scaledLen needle.h s) 2⟩)
        t
        (windowOrigins (clipRect area hay.w hay.h) (scaledLen needle.w s)
          (scaledLen needle.h s))).2 := rfl

/-- C1 (amended): `templateMatchFast` returns a candidate iff some window
origin of the clipped search region (row-major, stride 2) has a sampled
similarity score strictly above the threshold; the candidate corresponds to
the first window attaining the maximal score (ties resolve to the earlier
window), and the returned point is that window's origin plus half the scaled
template size, where the scaled size is `int(templateDim * scale)`
(truncation toward zero, not rounding). -/
theorem templateMatchFast_first_best_above_threshold (hay needle : Img) (t : ℚ)
    (area : Rect) (s : ℚ) :
    (templateMatchFast hay needle t area s = none ↔
      ∀ p ∈ windowOrigins (clipRect area hay.w hay.h) (scaledLen needle.w s) (scaledLen needle.h s),
        calculateSimilarityFast hay needle p.1 p.2 s ≤ t) ∧
    (∀ q, templateMatchFast hay needle t area s = some q →
      ∃ l1 p l2,
        windowOrigins (clipRect area hay.w hay.h) (scaledLen needle.w s) (scaledLen needle.h s)
          = l1 ++ p :: l2 ∧
        t < calculateSimilarityFast hay needle p.1 p.2 s ∧
        (∀ p2 ∈ windowOrigins (clipRect area hay.w hay.h) (scaledLen needle.w s)
            (scaledLen needle.h s),
          calculateSimilarityFast hay needle p2.1 p2.2 s ≤
            calculateSimilarityFast hay needle p.1 p.2 s) ∧
        (∀ p2 ∈ l1,
          calculateSimilarityFast hay needle p2.1 p2.2 s <
            calculateSimilarityFast hay needle p.1 p.2 s) ∧
        q = ⟨p.1 + Int.tdiv (scaledLen needle.w s) 2, p.2 + Int.tdiv (scaledLen needle.h s) 2⟩) := by
  rw [templateMatchFast_eq_bestScan]
  constructor
  · exact bestScan_eq_none_iff _ _ _ _
  · intro q hq
    rcases bestScan_eq_some _ _ _ _ q hq with ⟨l1, p, l2, hdec, hlt, hqe, hmax, hpre⟩
    exact ⟨l1, p, l2, hdec, hlt, hmax, hpre, hqe⟩

set_option maxRecDepth 8000 in
set_option maxHeartbeats 4000000 in
/-- C1 witness: on a 4×4 all-black frame no window of the white template
scores above 0.6, and the theorem yields the no-candidate result. -/
theorem templateMatchFast_first_best_witness :
    templateMatchFast imgB4 tmplW2 (3/5) ⟨0, 0, 4, 4⟩ 1 = none :=
  (templateMatchFast_first_best_above_threshold imgB4 tmplW2 (3/5) ⟨0, 0, 4, 4⟩ 1).1.mpr
    (by with_unfolding_all decide)

set_option maxRecDepth 8000 in
set_option maxHeartbeats 4000000 in
/-- C1 counterexample: on a uniform 16×4 gray frame with an 11×2 gray
template at scale 0.5, the scan returns `(2, 0)` (the half-width is
`int(5.5)/2 = 2`), yet no window origin of the region has
`x + round(11 * 0.5)/2 = 2` — the claimed `round`-based center formula
matches no window, so the claim as stated is false. -/
theorem templateMatchFast_round_counterexample :
    templateMatchFast imgGray tmplGray (3/10) ⟨0, 0, 16, 4⟩ (1/2) = some ⟨2, 0⟩ ∧
    ((windowOrigins (clipRect ⟨0, 0, 16, 4⟩ 16 4) (scaledLen 11 (1/2)) (scaledLen 2 (1/2))).all
      (fun p => decide (¬ p.1 + round ((11 : ℚ) * (1/2)) / 2 = 2))) = true := by
  constructor
  · with_unfolding_all decide
  · with_unfolding_all decide

/-- The Go absolute-value idiom equals `|·|`. -/
theorem if_neg_abs (d : ℤ) : (if d < 0 then -d else d) = |d| := by
  split_ifs with h
  · exact (abs_of_neg h).symm
  · exact (abs_of_nonneg (not_lt.mp h)).symm

/-- C8 (amended): both pixel predicates compare the Manhattan distance over
the 8-bit R, G, B channels with alpha ignored; `colorsAreSimilarStrict` holds
iff the distance is below 60 and `colorsAreSimilarLoose` — the loose predicate
used by the sampled bulk scan — holds iff it is below 150 (the 120 threshold
belongs to the separate legacy `colorsAreSimilarFast` in `main.go`, not to
`colorsAreSimilarLoose`). -/
theorem colorsAreSimilar_manhattan_thresholds (c : RGBA) (r2 g2 b2 : ℕ) :
    (colorsAreSimilarStrict c r2 g2 b2 = true ↔ manhattan c r2 g2 b2 < 60) ∧
    (colorsAreSimilarLoose c r2 g2 b2 = true ↔ manhattan c r2 g2 b2 < 150) := by
  constructor
  · simp only [colorsAreSimilarStrict, manhattan, if_neg_abs, decide_eq_true_eq]
  · simp only [colorsAreSimilarLoose, manhattan, if_neg_abs, decide_eq_true_eq]

set_option maxHeartbeats 1000000 in
/-- C8 counterexample: a pixel pair at Manhattan distance 130 — at least 120,
so the claimed loose threshold of 120 for fast bulk scanning would reject it —
is accepted by `colorsAreSimilarLoose`, and the bulk sampled scan
(`calculateSimilarityFast`) accordingly counts it as a full match. -/
theorem colorsAreSimilarLoose_threshold_counterexample :
    colorsAreSimilarLoose ⟨130, 0, 0, 255⟩ 0 0 0 = true ∧
    manhattan ⟨130, 0, 0, 255⟩ 0 0 0 = 130 ∧
    ¬ (130 : ℤ) < 120 ∧
    calculateSimilarityFast imgRed1 tmplB1 0 0 1 = 1 :=
  ⟨by decide, by decide, by decide, by with_unfolding_all decide⟩

/-- C10: with no accept template loaded, `VerifyAcceptButton` returns the
fixed score 0.5 for every frame, position and scale — above the 0.2 firing
threshold. -/
theorem verifyAcceptButton_nil_template_score (img : Img) (pos : Pt) (s : ℚ) :
    VerifyAcceptButton none img pos s = 1/2 ∧ (1/5 : ℚ) < 1/2 :=
  ⟨rfl, by norm_num⟩

/-- C9: when the frame capture fails, the poll iteration leaves the monitor
state untouched, issues no click and emits no notification. -/
theorem monitorTick_capture_failure_no_change (tmplM tmplA : Img) (st : AppState)
    (cap2 : Option Img) (clickOk : Bool) (nowSec : ℤ) :
    monitorTick tmplM tmplA st none cap2 clickOk nowSec = (st, ⟨none, []⟩) := rfl

/-- C5: whenever the reconstructed template box of the candidate leaves the
frame bounds, `VerifyAcceptButton` returns exactly 0.3, for every frame
content. -/
theorem verifyAcceptButton_out_of_bounds_score (t : Img) (img : Img) (pos : Pt) (s : ℚ)
    (h : pos.x - Int.tdiv (scaledLen t.w s) 2 < 0 ∨
         pos.y - Int.tdiv (scaledLen t.h s) 2 < 0 ∨
         (img.w : ℤ) ≤ pos.x - Int.tdiv (scaledLen t.w s) 2 + scaledLen t.w s ∨
         (img.h : ℤ) ≤ pos.y - Int.tdiv (scaledLen t.h s) 2 + scaledLen t.h s) :
    VerifyAcceptButton (some t) img pos s = 3/10 := by
  simp only [VerifyAcceptButton]
  rw [if_pos h]

/-- C5 witness: a candidate at (0,0) with a 2×2 template reconstructs a box
starting at x = -1, outside bounds, and scores 0.3. -/
theorem verifyAcceptButton_out_of_bounds_witness :
    VerifyAcceptButton (some tmplW2) imgW4 ⟨0, 0⟩ 1 = 3/10 :=
  verifyAcceptButton_out_of_bounds_score tmplW2 imgW4 ⟨0, 0⟩ 1 (by with_unfolding_all decide)

/-- C7: on a poll tick taken while awaiting the accept button, if the
matching screen is no longer present the machine resets both flags (the loop
terminates), emits exactly the match-lost and stop notifications, and issues
no click and no button-search notification on that tick. -/
theorem monitorTick_match_lost_stops (tmplM tmplA : Img) (st : AppState) (img : Img)
    (cap2 : Option Img) (clickOk : Bool) (nowSec : ℤ)
    (hrun : st.running = true) (hwait : st.waitingForMatch = false)
    (hlost : FastDetectMatchingScreen (some tmplM) img = false) :
    monitorTick tmplM tmplA st (some img) cap2 clickOk nowSec =
      (⟨false, false⟩, ⟨none, [Ev.matchLost, Ev.statusStopped, Ev.stopped]⟩) := by
  have hst : st = ⟨true, false⟩ := by
    rcases st with ⟨r, w⟩
    simp_all
  subst hst
  simp [monitorTick, hlost, stopMonitoring]

/-- C7 witness: a black frame is not recognised as the matching screen, so a
monitor awaiting the accept button stops. -/
theorem monitorTick_match_lost_witness :
    monitorTick tmplW2 tmplW2 ⟨true, false⟩ (some imgB4) none false 1 =
      (⟨false, false⟩, ⟨none, [Ev.matchLost, Ev.statusStopped, Ev.stopped]⟩) :=
  monitorTick_match_lost_stops tmplW2 tmplW2 ⟨true, false⟩ imgB4 none false 1 rfl rfl
    (by with_unfolding_all decide)

/-- C6: in the awaiting-accept-button state, with the matching screen still
present and a button candidate found, the click controller is invoked exactly
when the candidate's verification score (at scale 1.0) strictly exceeds 0.2. -/
theorem monitorTick_click_iff_score_above_threshold (tmplM tmplA : Img) (st : AppState)
    (img : Img) (cap2 : Option Img) (clickOk : Bool) (nowSec : ℤ) (pos : Pt)
    (hwait : st.waitingForMatch = false)
    (hpresent : FastDetectMatchingScreen (some tmplM) img = true)
    (hbtn : FastDetectAcceptButton tmplA img = some pos) :
    ((monitorTick tmplM tmplA st (some img) cap2 clickOk nowSec).2.clicked = some pos ↔
      (1/5 : ℚ) < VerifyAcceptButton (some tmplA) img pos 1) := by
  simp only [monitorTick, hwait, hpresent, hbtn]
  by_cases hs : (1/5 : ℚ) < VerifyAcceptButton (some tmplA) img pos 1
  · rw [if_pos hs]
    cases clickOk
    · simpa using hs
    · rcases cap2 with _ | img2
      · simpa using hs
      · by_cases h2 : FastDetectMatchingScreen (some tmplM) img2 = true
        · simp only [h2, if_true]
          simpa using hs
        · simp only [Bool.not_eq_true] at h2
          simp only [h2, Bool.false_eq_true, if_false]
          simpa using hs
  · rw [if_neg hs]
    simpa using hs

set_option maxRecDepth 8000 in
set_option maxHeartbeats 4000000 in
/-- C6 witness: on the all-white frame the button is found at (0,0) with
verification score 0.3 > 0.2 at scale 1.0, and the click is issued there. -/
theorem monitorTick_click_witness :
    (monitorTick tmplW2 tmplW2 ⟨true, false⟩ (some imgW4) none false 1).2.clicked =
      some ⟨0, 0⟩ :=
  (monitorTick_click_iff_score_above_threshold tmplW2 tmplW2 ⟨true, false⟩ imgW4 none false 1
    ⟨0, 0⟩ rfl (by with_unfolding_all decide) (by with_unfolding_all decide)).mpr
    (by with_unfolding_all decide)

/-- The near-white fraction the heuristic compares against 5%. -/
def whiteTextFraction (img : Img) : ℚ :=
  ((whiteTextSamplePts img).countP (fun p => nearWhite (img.pix p.1 p.2)) : ℚ) /
    ((whiteTextSamplePts img).length : ℚ)

/-- C2: `FastDetectMatchingScreen` with a loaded template is the disjunction
of the template signal (full-frame search at scale 1.0 / threshold 0.6,
retried at each listed scale with threshold 0.5) and the near-white text
heuristic (positive exactly when the sampled near-white fraction exceeds
0.05). -/
theorem fastDetectMatchingScreen_some_eq (t : Img) (img : Img) :
    FastDetectMatchingScreen (some t) img =
      (if ((templateMatchFast img t (3/5) ⟨0, 0, (img.w : ℤ), (img.h : ℤ)⟩ 1).isSome ||
           matchingScales.any
             (fun s => (templateMatchFast img t (1/2) ⟨0, 0, (img.w : ℤ), (img.h : ℤ)⟩ s).isSome))
       then true
       else if 0 < (whiteTextSamplePts img).length
            then decide ((1/20 : ℚ) <
              ((whiteTextSamplePts img).countP (fun p => nearWhite (img.pix p.1 p.2)) : ℚ) /
                ((whiteTextSamplePts img).length : ℚ))
            else false) := rfl

/-- C2: `FastDetectMatchingScreen` with a loaded template is the disjunction
of the template signal (full-frame search at scale 1.0 / threshold 0.6,
retried at each listed scale with threshold 0.5) and the near-white text
heuristic (positive exactly when the sampled near-white fraction exceeds
0.05). -/
theorem fastDetectMatchingScreen_or_decomposition (t : Img) (img : Img) :
    (FastDetectMatchingScreen (some t) img = true ↔
      (templateMatchFast img t (3/5) ⟨0, 0, (img.w : ℤ), (img.h : ℤ)⟩ 1).isSome = true ∨
      (∃ s ∈ matchingScales,
        (templateMatchFast img t (1/2) ⟨0, 0, (img.w : ℤ), (img.h : ℤ)⟩ s).isSome = true) ∨
      (1/20 : ℚ) < whiteTextFraction img) := by
  rw [fastDetectMatchingScreen_some_eq]
  constructor
  · intro h
    by_cases hA : (templateMatchFast img t (3/5) ⟨0, 0, (img.w : ℤ), (img.h : ℤ)⟩ 1).isSome = true
    · exact Or.inl hA
    by_cases hB : (matchingScales.any
        (fun s => (templateMatchFast img t (1/2) ⟨0, 0, (img.w : ℤ), (img.h : ℤ)⟩ s).isSome)) = true
    · exact Or.inr (Or.inl (List.any_eq_true.mp hB))
    right; right
    rw [Bool.not_eq_true] at hA hB
    rw [hA, hB, Bool.or_self] at h
    rw [if_neg (by simp)] at h
    split at h
    · exact decide_eq_true_eq.mp h
    · cases h
  · intro h
    rcases h with hA | hB | hfr
    · rw [hA, Bool.true_or, if_pos rfl]
    · rw [List.any_eq_true.mpr hB, Bool.or_true, if_pos rfl]
    · by_cases hAB : ((templateMatchFast img t (3/5) ⟨0, 0, (img.w : ℤ), (img.h : ℤ)⟩ 1).isSome ||
          matchingScales.any
            (fun s => (templateMatchFast img t (1/2) ⟨0, 0, (img.w : ℤ), (img.h : ℤ)⟩ s).isSome)) = true
      · rw [hAB, if_pos rfl]
      · rw [Bool.not_eq_true] at hAB
        rw [hAB]
        rw [if_neg (by simp)]
        have hlen : 0 < (whiteTextSamplePts img).length := by
          by_contra hl
          have hnil : whiteTextSamplePts img = [] := by
            rcases hxs : whiteTextSamplePts img with _ | ⟨p, l⟩
            · rfl
            · rw [hxs] at hl; simp at hl
          rw [whiteTextFraction, hnil] at hfr
          norm_num at hfr
        rw [if_pos hlen]
        exact decide_eq_true_eq.mpr hfr

/-- A counting ratio lies in [0, 1]. -/
theorem countP_div_bounds {α : Type} (l : List α) (p : α → Bool) :
    0 ≤ ((l.countP p : ℚ) / (l.length : ℚ)) ∧ (l.countP p : ℚ) / (l.length : ℚ) ≤ 1 := by
  constructor
  · positivity
  · rcases Nat.eq_zero_or_pos l.length with h | h
    · rw [h]
      norm_num
    · rw [div_le_one (by exact_mod_cast h)]
      exact_mod_cast List.countP_le_length p

/-- The surrounding-color bonus lies in [0, 0.2]. -/
theorem checkSurroundingColors_bounds (img : Img) (cX cY : ℤ) :
    0 ≤ checkSurroundingColors img cX cY ∧ checkSurroundingColors img cX cY ≤ 1/5 := by
  simp only [checkSurroundingColors]
  split_ifs <;> norm_num

/-- The exhaustive strict-match ratio lies in [0, 1]. -/
theorem calculateDetailedSimilarity_bounds (hay needle : Img) (ox oy : ℤ) (s : ℚ) :
    0 ≤ calculateDetailedSimilarity hay needle ox oy s ∧
      calculateDetailedSimilarity hay needle ox oy s ≤ 1 := by
  simp only [calculateDetailedSimilarity]
  split_ifs with h
  · norm_num
  · exact countP_div_bounds _ _

/-- A pixel always strict-matches itself (distance zero). -/
theorem colorsAreSimilarStrict_self (c : RGBA) :
    colorsAreSimilarStrict c c.r c.g c.b = true := by
  simp only [colorsAreSimilarStrict, decide_eq_true_eq]
  split_ifs <;> omega

/-- Go's `int` conversion after multiplying by scale 1.0 is the identity. -/
theorem goInt_mul_one (x : ℤ) : goInt ((x : ℚ) * 1) = x := by
  rw [mul_one]
  exact goInt_intCast x

/-- When the template box fits in the frame and every template pixel equals
the corresponding frame pixel, the exhaustive strict-match ratio at scale 1.0
is exactly 1. -/
theorem calculateDetailedSimilarity_perfect (hay t : Img) (sx sy : ℤ)
    (hw : 0 < t.w) (hh : 0 < t.h)
    (hbx : sx + (t.w : ℤ) ≤ (hay.w : ℤ)) (hby : sy + (t.h : ℤ) ≤ (hay.h : ℤ))
    (hpix : ∀ x y : ℤ, 0 ≤ x → x < (t.w : ℤ) → 0 ≤ y → y < (t.h : ℤ) →
      hay.pix (sx + x) (sy + y) = t.pix x y) :
    calculateDetailedSimilarity hay t sx sy 1 = 1 := by
  have hco : ∀ p : ℤ × ℤ, p ∈ detailedPts t →
      0 ≤ p.1 ∧ p.1 ≤ (t.w : ℤ) - 1 ∧ 0 ≤ p.2 ∧ p.2 ≤ (t.h : ℤ) - 1 := by
    intro p hp
    rcases gridPts_mem.mp hp with ⟨h2, h1⟩
    have hb1 := stepList_bounds h1
    have hb2 := stepList_bounds h2
    exact ⟨hb1.1, hb1.2, hb2.1, hb2.2⟩
  have hkeep : ∀ p ∈ detailedPts t,
      (decide (sx + goInt ((p.1 : ℚ) * 1) < (hay.w : ℤ) ∧
               sy + goInt ((p.2 : ℚ) * 1) < (hay.h : ℤ))) = true := by
    intro p hp
    rcases hco p hp with ⟨h1, h2, h3, h4⟩
    rw [decide_eq_true_eq, goInt_mul_one, goInt_mul_one]
    omega
  have hall : ∀ p ∈ detailedPts t,
      (colorsAreSimilarStrict
        (hay.pix (sx + goInt ((p.1 : ℚ) * 1)) (sy + goInt ((p.2 : ℚ) * 1)))
        (t.pix p.1 p.2).r (t.pix p.1 p.2).g (t.pix p.1 p.2).b) = true := by
    intro p hp
    rcases hco p hp with ⟨h1, h2, h3, h4⟩
    rw [goInt_mul_one, goInt_mul_one, hpix p.1 p.2 h1 (by omega) h3 (by omega)]
    exact colorsAreSimilarStrict_self (t.pix p.1 p.2)
  have hmem : ((0 : ℤ), (0 : ℤ)) ∈ detailedPts t := by
    refine gridPts_mem.mpr ⟨?_, ?_⟩
    · exact stepList_self 1 (by omega)
    · exact stepList_self 1 (by omega)
  have hlen0 : (detailedPts t).length ≠ 0 := by
    intro h0
    rw [List.length_eq_zero] at h0
    rw [h0] at hmem
    cases hmem
  simp only [calculateDetailedSimilarity]
  rw [List.filter_eq_self.mpr hkeep]
  rw [List.countP_eq_length.mpr hall]
  rw [if_neg hlen0]
  exact div_self (by exact_mod_cast hlen0)

/-- C4: the verification score always lies in [0, 1.2] (strict-match ratio in
[0,1] plus a bonus in \x7b0, 0.1, 0.2\x7d, with the fixed 0.5 and 0.3 fallbacks also
inside the interval); and for a candidate whose reconstructed template
footprint lies inside the frame and matches the template pixel-for-pixel at
scale 1.0, the score is at least 1. -/
theorem verifyAcceptButton_bounds_and_perfect (ot : Option Img) (t img : Img)
    (pos : Pt) (s : ℚ) :
    (0 ≤ VerifyAcceptButton ot img pos s ∧ VerifyAcceptButton ot img pos s ≤ 6/5) ∧
    (0 < t.w → 0 < t.h →
      ¬ (pos.x - Int.tdiv (scaledLen t.w 1) 2 < 0 ∨
         pos.y - Int.tdiv (scaledLen t.h 1) 2 < 0 ∨
         (img.w : ℤ) ≤ pos.x - Int.tdiv (scaledLen t.w 1) 2 + scaledLen t.w 1 ∨
         (img.h : ℤ) ≤ pos.y - Int.tdiv (scaledLen t.h 1) 2 + scaledLen t.h 1) →
      (∀ x y : ℤ, 0 ≤ x → x < (t.w : ℤ) → 0 ≤ y → y < (t.h : ℤ) →
        img.pix (pos.x - Int.tdiv (scaledLen t.w 1) 2 + x)
            (pos.y - Int.tdiv (scaledLen t.h 1) 2 + y) = t.pix x y) →
      1 ≤ VerifyAcceptButton (some t) img pos 1) := by
  constructor
  · rcases ot with _ | u
    · constructor <;> norm_num [VerifyAcceptButton]
    · simp only [VerifyAcceptButton]
      split_ifs with h
      · constructor <;> norm_num
      · have h1 := calculateDetailedSimilarity_bounds img u
          (pos.x - Int.tdiv (scaledLen u.w s) 2) (pos.y - Int.tdiv (scaledLen u.h s) 2) s
        have h2 := checkSurroundingColors_bounds img pos.x pos.y
        constructor <;> linarith [h1.1, h1.2, h2.1, h2.2]
  · intro hw hh hnb hpix
    simp only [VerifyAcceptButton]
    rw [if_neg hnb]
    rw [scaledLen_one t.w, scaledLen_one t.h] at hnb hpix ⊢
    push_neg at hnb
    rcases hnb with ⟨hx0, hy0, hxw, hyh⟩
    have h1 : calculateDetailedSimilarity img t (pos.x - Int.tdiv (t.w : ℤ) 2)
        (pos.y - Int.tdiv (t.h : ℤ) 2) 1 = 1 :=
      calculateDetailedSimilarity_perfect img t _ _ hw hh (by omega) (by omega) hpix
    rw [h1]
    have h2 := checkSurroundingColors_bounds img pos.x pos.y
    linarith [h2.1]

/-- C4 witness: a 2×2 white template centered at (1,1) in the all-white 4×4
frame fits the frame and matches pixel-for-pixel, so the score is ≥ 1. -/
theorem verifyAcceptButton_bounds_and_perfect_witness :
    1 ≤ VerifyAcceptButton (some tmplW2) imgW4 ⟨1, 1⟩ 1 :=
  (verifyAcceptButton_bounds_and_perfect (some tmplW2) tmplW2 imgW4 ⟨1, 1⟩ 1).2
    (by decide) (by decide) (by with_unfolding_all decide)
    (fun x y hx hxw hy hyh => rfl)

/-- `FastDetectAcceptButton` unfolded to its three-stage first-success form. -/
theorem fastDetectAcceptButton_eq (tmpl img : Img) :
    FastDetectAcceptButton tmpl img =
      (if (if acceptTemplateMethod tmpl img (acceptSearchArea img) = none
           then detectButtonByColor img (acceptSearchArea img)
           else acceptTemplateMethod tmpl img (acceptSearchArea img)) = none
       then detectButtonByEdge img (acceptSearchArea img)
       else (if acceptTemplateMethod tmpl img (acceptSearchArea img) = none
             then detectButtonByColor img (acceptSearchArea img)
             else acceptTemplateMethod tmpl img (acceptSearchArea img))) := rfl

/-- The score the color-cluster fold effectively maximises: the cluster count
of a button-coloured sample when it exceeds 50, and 0 otherwise. -/
def colorScore (img : Img) (area : Rect) (p : ℤ × ℤ) : ℕ :=
  if isAcceptButtonColor (img.pix p.1 p.2) = true then
    (if 50 < countSimilarColorCluster img p.1 p.2 area
     then countSimilarColorCluster img p.1 p.2 area else 0)
  else 0

/-- The color-cluster fold is a keep-the-strictly-best scan of `colorScore`. -/
theorem detectButtonByColor_eq_bestScan (img : Img) (area : Rect) :
    detectButtonByColor img area =
      (bestScan (colorScore img area) (fun p => ⟨p.1, p.2⟩) 0 (colorSamplePts area)).2 := by
  unfold detectButtonByColor bestScan
  congr 1
  apply List.foldl_ext
  intro st p hp
  simp only [bestStep, colorScore]
  by_cases hbc : isAcceptButtonColor (img.pix p.1 p.2) = true
  · rw [if_pos hbc, if_pos hbc]
    by_cases h50 : 50 < countSimilarColorCluster img p.1 p.2 area
    · rw [if_pos h50]
      by_cases hlt : st.1 < countSimilarColorCluster img p.1 p.2 area
      · rw [if_pos ⟨hlt, h50⟩, if_pos hlt]
      · rw [if_neg (by tauto), if_neg hlt]
    · rw [if_neg h50, if_neg (by tauto), if_neg (by omega)]
  · rw [if_neg hbc, if_neg hbc, if_neg (by omega)]

/-- A strictly positive color score records a button-coloured sample whose
cluster count exceeds 50. -/
theorem colorScore_pos {img : Img} {area : Rect} {q : ℤ × ℤ}
    (h : 0 < colorScore img area q) :
    isAcceptButtonColor (img.pix q.1 q.2) = true ∧
    50 < countSimilarColorCluster img q.1 q.2 area ∧
    colorScore img area q = countSimilarColorCluster img q.1 q.2 area := by
  unfold colorScore at h ⊢
  split_ifs at h ⊢ with h1 h2
  · exact ⟨h1, h2, rfl⟩
  · omega
  · omega

/-- The edge-pixel fraction of one 100×50 probe window, as the claim words
it: the fraction of the full coarse grid whose right or down neighbour
differs by a Manhattan distance over 30. Inside the clipped search area the
code's in-frame guard never fires, so this coincides with `isButtonShape`'s
computation there. -/
def claimEdgeFraction (img : Img) (x y : ℤ) : ℚ :=
  (((edgeProbeOffsets 100 50).countP (fun d =>
    decide (30 < colorDifference (img.pix (x + d.1) (y + d.2)) (img.pix (x + d.1 + 1) (y + d.2)) ∨
            30 < colorDifference (img.pix (x + d.1) (y + d.2)) (img.pix (x + d.1) (y + d.2 + 1))))) : ℚ) /
    ((edgeProbeOffsets 100 50).length : ℚ)

/-- For probe windows inside the clipped search area, `isButtonShape` decides
exactly whether the claim's edge-pixel fraction exceeds 0.15. -/
theorem isButtonShape_eq_fraction (img : Img) (area : Rect)
    (hx : area.maxX ≤ (img.w : ℤ)) (hy : area.maxY ≤ (img.h : ℤ))
    {p : ℤ × ℤ} (hp : p ∈ edgeWindows area) :
    isButtonShape img p.1 p.2 100 50 =
      decide ((3/20 : ℚ) < claimEdgeFraction img p.1 p.2) := by
  rcases gridPts_mem.mp hp with ⟨h2, h1⟩
  have hb1 := stepList_bounds h1
  have hb2 := stepList_bounds h2
  have hg : ¬ ((img.w : ℤ) ≤ p.1 + 100 ∨ (img.h : ℤ) ≤ p.2 + 50) := by omega
  simp only [isButtonShape]
  rw [if_neg hg]
  have hkeep : ∀ d ∈ edgeProbeOffsets 100 50,
      (decide (p.1 + d.1 < (img.w : ℤ) - 1 ∧ p.2 + d.2 < (img.h : ℤ) - 1)) = true := by
    intro d hd
    rcases gridPts_mem.mp hd with ⟨hd2, hd1⟩
    have hc1 := stepList_bounds hd1
    have hc2 := stepList_bounds hd2
    rw [decide_eq_true_eq]
    omega
  rw [List.filter_eq_self.mpr hkeep]
  have hne : 0 < (edgeProbeOffsets 100 50).length := by
    have hmem : ((0 : ℤ), (0 : ℤ)) ∈ edgeProbeOffsets 100 50 :=
      gridPts_mem.mpr ⟨stepList_self 2 (by norm_num), stepList_self 2 (by norm_num)⟩
    exact List.length_pos.mpr (List.ne_nil_of_mem hmem)
  rw [decide_eq_true hne, Bool.true_and]
  rfl

/-- C3: `FastDetectAcceptButton` tries its three methods in order with
first-success-wins — the color-cluster method only after the template method
over the whole (threshold, scale) cross-product kept no candidate, the
edge-density method only after both found none; the color-cluster method
returns a sampled button-coloured pixel whose 41×41-window neighbour count
exceeds 50 and is maximal among all sampled button-coloured pixels; the
edge-density method returns the center of the first row-major stride-5 probe
window whose edge-pixel fraction exceeds 0.15. -/
theorem fastDetectAcceptButton_method_order_spec (tmpl img : Img) :
    (∀ p, acceptTemplateMethod tmpl img (acceptSearchArea img) = some p →
        FastDetectAcceptButton tmpl img = some p) ∧
    (acceptTemplateMethod tmpl img (acceptSearchArea img) = none →
      ∀ p, detectButtonByColor img (acceptSearchArea img) = some p →
        FastDetectAcceptButton tmpl img = some p) ∧
    (acceptTemplateMethod tmpl img (acceptSearchArea img) = none →
      detectButtonByColor img (acceptSearchArea img) = none →
      FastDetectAcceptButton tmpl img = detectButtonByEdge img (acceptSearchArea img)) ∧
    (∀ p, detectButtonByColor img (acceptSearchArea img) = some p →
      ∃ l1 q l2, colorSamplePts (acceptSearchArea img) = l1 ++ q :: l2 ∧
        p = ⟨q.1, q.2⟩ ∧
        isAcceptButtonColor (img.pix q.1 q.2) = true ∧
        50 < countSimilarColorCluster img q.1 q.2 (acceptSearchArea img) ∧
        (∀ r ∈ colorSamplePts (acceptSearchArea img),
          isAcceptButtonColor (img.pix r.1 r.2) = true →
          countSimilarColorCluster img r.1 r.2 (acceptSearchArea img) ≤
            countSimilarColorCluster img q.1 q.2 (acceptSearchArea img))) ∧
    (∀ p, detectButtonByEdge img (acceptSearchArea img) = some p →
      ∃ l1 q l2, edgeWindows (acceptSearchArea img) = l1 ++ q :: l2 ∧
        p = ⟨q.1 + 50, q.2 + 25⟩ ∧
        (3/20 : ℚ) < claimEdgeFraction img q.1 q.2 ∧
        (∀ r ∈ l1, ¬ (3/20 : ℚ) < claimEdgeFraction img r.1 r.2)) := by
  refine ⟨?_, ?_, ?_, ?_, ?_⟩
  · intro p hm1
    rw [fastDetectAcceptButton_eq, hm1]
    simp
  · intro hm1 p hcol
    rw [fastDetectAcceptButton_eq, hm1, hcol]
    simp
  · intro hm1 hcol
    rw [fastDetectAcceptButton_eq, hm1, hcol]
    simp
  · intro p hcol
    rw [detectButtonByColor_eq_bestScan] at hcol
    rcases bestScan_eq_some _ _ _ _ p hcol with ⟨l1, q, l2, hdec, hpos, hpq, hmax, hpre⟩
    rcases colorScore_pos hpos with ⟨hbc, h50, hsc⟩
    refine ⟨l1, q, l2, hdec, hpq, hbc, h50, ?_⟩
    intro r hr hrc
    have hmr := hmax r hr
    by_cases hr50 : 50 < countSimilarColorCluster img r.1 r.2 (acceptSearchArea img)
    · have hscr : colorScore img (acceptSearchArea img) r =
          countSimilarColorCluster img r.1 r.2 (acceptSearchArea img) := by
        unfold colorScore
        rw [if_pos hrc, if_pos hr50]
      omega
    · omega
  · intro p hedge
    simp only [detectButtonByEdge, Option.map_eq_some'] at hedge
    rcases hedge with ⟨q, hfind, hpq⟩
    rcases find_first_spec _ _ _ hfind with ⟨l1, l2, hdec, hq, hpre⟩
    have hxw : (acceptSearchArea img).maxX ≤ (img.w : ℤ) := min_le_right _ _
    have hyh : (acceptSearchArea img).maxY ≤ (img.h : ℤ) := min_le_right _ _
    have hqmem : q ∈ edgeWindows (acceptSearchArea img) := by
      rw [hdec]
      exact List.mem_append_right _ (List.mem_cons_self q l2)
    refine ⟨l1, q, l2, hdec, hpq.symm, ?_, ?_⟩
    · have := isButtonShape_eq_fraction img (acceptSearchArea img) hxw hyh hqmem
      rw [this] at hq
      exact of_decide_eq_true hq
    · intro r hr
      have hrmem : r ∈ edgeWindows (acceptSearchArea img) := by
        rw [hdec]
        exact List.mem_append_left _ hr
      have heq := isButtonShape_eq_fraction img (acceptSearchArea img) hxw hyh hrmem
      have hf := hpre r hr
      rw [heq] at hf
      exact of_decide_eq_false hf

set_option maxRecDepth 8000 in
set_option maxHeartbeats 4000000 in
/-- C3 witness: on the all-white frame the template method itself finds the
candidate (0,0), and the detector returns it. -/
theorem fastDetectAcceptButton_method_order_witness :
    FastDetectAcceptButton tmplW2 imgW4 = some ⟨0, 0⟩ :=
  (fastDetectAcceptButton_method_order_spec tmplW2 imgW4).1 ⟨0, 0⟩
    (by with_unfolding_all decide)

end LolAccept
